import Mathlib

/-!
Verification of extremevariantfilter (stLFR) against its natural-language
specification.  The Python sources (variant_filtering.py, apply_filter.py,
train_model.py) are shallowly embedded below: pandas table operations become
explicit list processing with `Option` capturing the exceptions the pandas
calls raise, Python `str.split(c)` becomes `pySplit c`, substring tests
(`"x" in s`) become `pyContains`, and the float arithmetic on allele depths is
carried out over `ℚ`.
-/

namespace EVF

/-- Model of Python `str.split(sep)` for a single-character separator,
accumulating the current chunk; splitting the empty string gives a single
empty chunk and a trailing separator yields a trailing empty chunk, as in
Python. -/
def pySplitAux (c : Char) : List Char → List Char → List String
  | [], acc => [String.mk acc.reverse]
  | x :: xs, acc =>
    if x = c then String.mk acc.reverse :: pySplitAux c xs []
    else pySplitAux c xs (x :: acc)

/-- Model of Python `s.split(c)` (single-character separator). -/
def pySplit (c : Char) (s : String) : List String := pySplitAux c s.toList []

/-- Whether `pat` occurs as a contiguous sublist of the second list. -/
def containsAux (pat : List Char) : List Char → Bool
  | [] => pat.isEmpty
  | x :: xs => pat.isPrefixOf (x :: xs) || containsAux pat xs

/-- Model of Python substring containment `pat in s`. -/
def pyContains (pat s : String) : Bool := containsAux pat.toList s.toList

/-- Model of Python `s.startswith(pre)` and of the anchored regex match of
`re.compile(...).match`. -/
def pyStartsWith (pre s : String) : Bool := pre.toList.isPrefixOf s.toList

/-- One variant record: the fixed ten tab-separated VCF columns, exactly the
column names `pandas.read_csv` is given in `Open_VCF`. -/
structure VRecord where
  chrom : String
  pos : String
  id : String
  ref : String
  alt : String
  qual : String
  filter : String
  info : String
  format : String
  calls : String
deriving DecidableEq

/-- Embedding of `Check_SNP` (variant_filtering.py lines 260-285 and
apply_filter.py lines 83-93): the comma test on ALT is substring containment,
`len` is string length, and the first two comma-separated alt alleles are
inspected (the second index exists whenever the comma test passed, modelled
with a default that is never reached under the guard). -/
def Check_SNP (ref alt : String) : Nat :=
  if pyContains "," alt then
    if ref.length = 1 ∧ (((pySplit ',' alt).getD 0 "").length = 1 ∨
                         ((pySplit ',' alt).getD 1 "").length = 1)
    then 1 else 0
  else
    if ref.length = 1 ∧ alt.length = 1 then 1 else 0

/-- The derived variant type of the specification. -/
inductive VariantType where
  | SNP : VariantType
  | INDEL : VariantType
deriving DecidableEq

/-- Spec-side definition, following the specification words for
`classifyType(ref, alt)`: if alt contains a comma (multi-allelic), the record
is a SNP iff the ref length is 1 and the first or the second comma-separated
alt allele has length 1; otherwise it is a SNP iff both ref and alt have
length 1; every other case is an INDEL. -/
def classifyTypeSpec (ref alt : String) : VariantType :=
  if pyContains "," alt then
    if ref.length = 1 ∧ (((pySplit ',' alt).getD 0 "").length = 1 ∨
                         ((pySplit ',' alt).getD 1 "").length = 1)
    then VariantType.SNP else VariantType.INDEL
  else
    if ref.length = 1 ∧ alt.length = 1 then VariantType.SNP
    else VariantType.INDEL

/-- Accumulating parser for a run of decimal digit characters; fails on any
non-digit, models numeric string parsing for `pandas.to_numeric`. -/
def digitsValAux (acc : Nat) : List Char → Option Nat
  | [] => some acc
  | c :: cs =>
    if '0' ≤ c ∧ c ≤ '9' then digitsValAux (acc * 10 + (c.toNat - 48)) cs
    else none

/-- Model of `pandas.to_numeric` on the decimal strings appearing in AD
sub-fields: optional leading minus, digits with at most one decimal point,
at least one digit; yields the exact rational value, fails (as `to_numeric`
raises) on anything else. -/
def parseNum (s : String) : Option ℚ :=
  match s.toList with
  | '-' :: rest => (parseNumCore rest).map (fun q => -q)
  | cs => parseNumCore cs
where
  parseNumCore (body : List Char) : Option ℚ :=
    match pySplitAux '.' body [] with
    | [ip] =>
      if ip.toList.isEmpty then none
      else (digitsValAux 0 ip.toList).map (fun n => (n : ℚ))
    | [ip, fp] =>
      if ip.toList.isEmpty ∧ fp.toList.isEmpty then none
      else
        match digitsValAux 0 ip.toList, digitsValAux 0 fp.toList with
        | some i, some f => some ((i : ℚ) + (f : ℚ) / (10 : ℚ) ^ fp.length)
        | _, _ => none
    | _ => none

/-- Lookup in a Python dict built from a pair sequence: the LAST binding of a
key wins, absent keys give `none`. -/
def lookupLast (k : String) (ps : List (String × String)) : Option String :=
  ((ps.filter (fun p => p.1 == k)).getLast?).map Prod.snd

/-- The six substring patterns of `Split_Info`
(variant_filtering.py line 131 / apply_filter.py line 63). -/
def infoPatterns : List String :=
  ["QD=", "MQ=", "MQRankSum=", "FS=", "ReadPosRankSum=", "SOR="]

/-- The six recognized INFO keys named by the specification, in the fixed
column-selection order of Make_Table (variant_filtering.py line 410). -/
def sixKeys : List String :=
  ["QD", "MQ", "FS", "MQRankSum", "ReadPosRankSum", "SOR"]

/-- The filter of `Split_Info`: a semicolon part is kept iff it CONTAINS one
of the six patterns as a substring (`any(field in part for field in fields)`),
which is not the same as its key being one of the six keys. -/
def keepPart (part : String) : Bool :=
  infoPatterns.any (fun f => pyContains f part)

/-- One kept part is turned into a key-value pair by splitting on the equals
sign; the Python `dict(...)` constructor raises unless the split has exactly
two elements, hence `none` in every other case. -/
def pairOfPart (part : String) : Option (String × String) :=
  match pySplit '=' part with
  | [k, v] => some (k, v)
  | _ => none

/-- Folds `pairOfPart` over the kept parts, failing if any part fails, as the
`dict(...)` generator expression does. -/
def collectPairs : List String → Option (List (String × String))
  | [] => some []
  | p :: ps =>
    match pairOfPart p, collectPairs ps with
    | some kv, some rest => some (kv :: rest)
    | _, _ => none

/-- Embedding of `Split_Info` (variant_filtering.py lines 117-134,
apply_filter.py lines 62-65): split the INFO column on a semicolon, keep the
parts containing one of the six patterns, and build the dict; values are the
RAW strings after the equals sign (no float conversion happens here). -/
def Split_Info (info : String) : Option (List (String × String)) :=
  collectPairs ((pySplit ';' info).filter keepPart)

/-- A pandas float64 cell: a rational value, NaN, or a signed infinity.
NaN arises from `None` entries (split padding) passed through `to_numeric`,
the infinities from division of a nonzero value by zero. -/
inductive PFloat where
  | nan : PFloat
  | posInf : PFloat
  | negInf : PFloat
  | val : ℚ → PFloat
deriving DecidableEq

/-- Elementwise float64 addition as numpy performs it: NaN absorbs,
opposite infinities give NaN, an infinity absorbs finite values.  Only the
NaN and finite cases are reachable from the pipeline (depth cells are never
infinite). -/
def pAdd : PFloat → PFloat → PFloat
  | PFloat.nan, _ => PFloat.nan
  | _, PFloat.nan => PFloat.nan
  | PFloat.val a, PFloat.val b => PFloat.val (a + b)
  | PFloat.posInf, PFloat.negInf => PFloat.nan
  | PFloat.negInf, PFloat.posInf => PFloat.nan
  | PFloat.posInf, _ => PFloat.posInf
  | _, PFloat.posInf => PFloat.posInf
  | PFloat.negInf, _ => PFloat.negInf
  | _, PFloat.negInf => PFloat.negInf

/-- Elementwise float64 division as numpy performs it: NaN absorbs; a finite
quotient for a nonzero divisor; zero over zero is NaN and a nonzero value
over zero is a signed infinity.  Infinite operands are unreachable from the
pipeline and given the standard semantics. -/
def pDiv : PFloat → PFloat → PFloat
  | PFloat.nan, _ => PFloat.nan
  | _, PFloat.nan => PFloat.nan
  | PFloat.val a, PFloat.val b =>
    if b = 0 then
      (if a = 0 then PFloat.nan
       else if 0 < a then PFloat.posInf else PFloat.negInf)
    else PFloat.val (a / b)
  | PFloat.val _, PFloat.posInf => PFloat.val 0
  | PFloat.val _, PFloat.negInf => PFloat.val 0
  | PFloat.posInf, PFloat.posInf => PFloat.nan
  | PFloat.posInf, PFloat.negInf => PFloat.nan
  | PFloat.negInf, PFloat.posInf => PFloat.nan
  | PFloat.negInf, PFloat.negInf => PFloat.nan
  | PFloat.posInf, PFloat.val b => if b < 0 then PFloat.negInf else PFloat.posInf
  | PFloat.negInf, PFloat.val b => if b < 0 then PFloat.posInf else PFloat.negInf

/-- Model of `pandas.to_numeric` on one cell of a split-expanded column: a
`None` cell (the padding `str.split(expand=True)` uses for missing parts)
passes through as NaN WITHOUT raising; a string cell parses to its exact
value or raises (`none`). -/
def toNumericCell : Option String → Option PFloat
  | none => some PFloat.nan
  | some s => (parseNum s).map PFloat.val

/-- The five per-record values produced by `Get_Calls_Info`: the one-hot
column for genotype `0/1` (uint8, never NaN), and the four float64 columns
`RefD`, `AltD`, `RDper` and `ADrat`. -/
structure CallsRow where
  het : ℚ
  refD : PFloat
  altD : PFloat
  rdper : PFloat
  adrat : PFloat
deriving DecidableEq

/-- One row of the calls table from the (possibly padded, hence optional)
GT and AD cells of the colon-split calls frame: the depths are the
`to_numeric` images of the first two comma-separated AD parts, where a
missing part — a padded calls cell, or an AD with a single part — passes
through as NaN rather than raising; the genotype dummy is 1 exactly on the
non-null literal `0/1` (a padded GT cell gets an all-zero dummy row); and
`RDper`, `ADrat` are the float64 quotient columns of the source. -/
def callsRowOf (gt : Option String) (ad : Option String) : Option CallsRow :=
  match toNumericCell (ad.map (fun s => (pySplit ',' s).getD 0 "")),
        toNumericCell (ad.bind (fun s => (pySplit ',' s).get? 1)) with
  | some rd, some ad1 =>
    some ⟨if gt = some "0/1" then 1 else 0, rd, ad1,
          pDiv rd (pAdd rd ad1), pDiv ad1 (pAdd rd (PFloat.val (1 / 10)))⟩
  | _, _ => none

/-- Builds all calls rows, failing when any single row fails. -/
def collectRows : List (Option String × Option String) → Option (List CallsRow)
  | [] => some []
  | p :: ps =>
    match callsRowOf p.1 p.2, collectRows ps with
    | some r, some rs => some (r :: rs)
    | _, _ => none

/-- Embedding of `Get_Calls_Info` (variant_filtering.py lines 137-162,
apply_filter.py lines 68-80) at the pandas table level.  Failure (`none`)
models the exceptions the pandas calls raise:
the format keys come from the FIRST record only (`vcf['FORMAT'][0]`, an
error on an empty table); `str.split(':', expand=True)` produces as many
columns as the MAXIMUM part count over the table, padding shorter rows with
`None`, and assigning `call_fields.columns` requires that maximum to equal
the first format's key count; `call_fields['GT']` / `call_fields['AD']` need
a unique column of that label; selecting the `0/1` dummy column is a
KeyError unless some record has that non-null genotype literal; and
assigning the three AD column names `RefD, AltD, AltAltD` is a
length-mismatch ValueError unless the comma-split AD sub-fields expand to
exactly three columns — a `None` AD cell expands to a single all-`None`
column's worth, so it counts one. -/
def Get_Calls_Info (vcf : List VRecord) : Option (List CallsRow) :=
  match vcf.head? with
  | none => none
  | some r0 =>
    let keys := pySplit ':' r0.format
    let rows := vcf.map (fun r => pySplit ':' r.calls)
    if (rows.map List.length).foldl Nat.max 0 = keys.length then
      match keys.findIdx? (fun k => k == "GT"), keys.findIdx? (fun k => k == "AD") with
      | some g, some a =>
        if (keys.filter (fun k => k == "GT")).length = 1 ∧
           (keys.filter (fun k => k == "AD")).length = 1 then
          let gts := rows.map (fun row => row.get? g)
          if gts.contains (some "0/1") then
            let ads := rows.map (fun row => row.get? a)
            if (ads.map (fun ad =>
                  match ad with
                  | some s => (pySplit ',' s).length
                  | none => 1)).foldl Nat.max 0 = 3 then
              collectRows (gts.zip ads)
            else none
          else none
        else none
      | _, _ => none
    else none

/-- A feature cell: `Split_Info` never converts its values, so a present
INFO value enters the feature table as the raw string (object dtype), while
`fillna(0.)` fills a missing one with the float 0.0 and the calls-derived
columns are float64 values (possibly NaN). -/
inductive FVal where
  | str : String → FVal
  | num : PFloat → FVal
deriving DecidableEq

/-- The six INFO-derived cells of one record in the fixed selection order
QD, MQ, FS, MQRankSum, ReadPosRankSum, SOR: the raw string where the
record's INFO dict has the key, the `fillna` float 0.0 where it does not. -/
def infoRow (d : List (String × String)) : List FVal :=
  sixKeys.map (fun k =>
    match lookupLast k d with
    | some v => FVal.str v
    | none => FVal.num (PFloat.val 0))

/-- Applies `Split_Info` to every record's INFO column, failing if any single
application raises. -/
def collectInfos : List VRecord → Option (List (List (String × String)))
  | [] => some []
  | r :: rs =>
    match Split_Info r.info, collectInfos rs with
    | some d, some ds => some (d :: ds)
    | _, _ => none

/-- Embedding of the feature-table construction shared by `Make_Table`
(variant_filtering.py lines 392-414) and the apply workflow
(apply_filter.py lines 139-142): build the per-record INFO dicts, then select
the six recognized columns — a pandas KeyError (hence `none`) unless each of
the six keys is present in at least one record of the table — and
concatenate the five calls-derived columns, giving 11 cells per record in the
fixed order QD, MQ, FS, MQRankSum, ReadPosRankSum, SOR, isHet, RefD, AltD,
RDper, ADrat. -/
def Feature_Table (vcf : List VRecord) : Option (List (List FVal)) :=
  match collectInfos vcf with
  | none => none
  | some ds =>
    if sixKeys.all (fun k => ds.any (fun d => (lookupLast k d).isSome)) then
      match Get_Calls_Info vcf with
      | none => none
      | some calls =>
        some ((ds.zip calls).map (fun p =>
          infoRow p.1 ++
            [FVal.num (PFloat.val p.2.het), FVal.num p.2.refD, FVal.num p.2.altD,
             FVal.num p.2.rdper, FVal.num p.2.adrat]))
    else none

/-- Embedding of `Make_Table` (variant_filtering.py lines 392-414 and
train_model.py lines 91-98): the feature table with the truth label appended
as a twelfth column. -/
def Make_Table (vcf : List VRecord) (label : ℚ) : Option (List (List FVal × ℚ)) :=
  (Feature_Table vcf).map (fun t => t.map (fun row => (row, label)))

/-- A one-record table whose QUAL cell is the non-canonical numeric literal
`50.00`: the QUAL column is inferred float64 and re-serialized as `50.0`. -/
def cex8rec : VRecord :=
  ⟨"1", "100", ".", "A", "T", "50.00", ".",
   "QD=1.0;MQ=60.00;FS=0.5;MQRankSum=0.1;ReadPosRankSum=0.2;SOR=0.7",
   "GT:AD", "0/1:10,5,0"⟩

/-- A concrete two-record table: the first record carries all six recognized
INFO keys, the second only `QD`, so the second must receive 0.0 defaults. -/
def mtW : List VRecord :=
  [⟨"1", "100", ".", "A", "T", "50", ".",
    "QD=1.0;MQ=60.00;FS=0.5;MQRankSum=0.1;ReadPosRankSum=0.2;SOR=0.7",
    "GT:AD", "0/1:10,5,0"⟩,
   ⟨"1", "101", ".", "A", "AT", "50", ".", "QD=2.0", "GT:AD", "0/1:1,2"⟩]

/-- Embedding of `Check_VCF_Paths` (variant_filtering.py lines 505-525 and
train_model.py lines 122-127): a pure function of the two comma-separated
path strings alone — it performs no I/O, so its failure necessarily happens
before any file is opened.  It raises (`none`) exactly when at least one list
has a comma and the split lengths differ; otherwise it returns the zipped
pair list. -/
def Check_VCF_Paths (tp fp : String) : Option (List (String × String)) :=
  if (pyContains "," tp || pyContains "," fp) = true ∧
     (pySplit ',' tp).length ≠ (pySplit ',' fp).length
  then none
  else some ((pySplit ',' tp).zip (pySplit ',' fp))

/-- Embedding of train_model.py's `Get_Training_Tables` (lines 111-119) for
one path pair: the true-positive table labelled 1 and the false-positive
table labelled 0, appended in that order.  `fetch` abstracts the parsed
record contents of a path. -/
def Get_Training_Tables (fetch : String → List VRecord) (pr : String × String) :
    Option (List (List FVal × ℚ)) :=
  match Make_Table (fetch pr.1) 1, Make_Table (fetch pr.2) 0 with
  | some tp, some fp => some (tp ++ fp)
  | _, _ => none

/-- Maps `Get_Training_Tables` over all pairs (the `pool.map` of
train_model.py line 136, which preserves input order), failing if any pair
fails. -/
def collectTables (fetch : String → List VRecord) :
    List (String × String) → Option (List (List (List FVal × ℚ)))
  | [] => some []
  | p :: ps =>
    match Get_Training_Tables fetch p, collectTables fetch ps with
    | some t, some ts => some (t :: ts)
    | _, _ => none

/-- Embedding of the train workflow of train_model.py lines 130-141:
check the path lists, build each pair's table, and concatenate the
sub-tables in input pair order (`np.concatenate`). -/
def Train_Main (fetch : String → List VRecord) (tp fp : String) :
    Option (List (List FVal × ℚ)) :=
  match Check_VCF_Paths tp fp with
  | none => none
  | some pairs =>
    match collectTables fetch pairs with
    | none => none
    | some ts => some ts.flatten

/-- The assertion body of `Check_VCF` (variant_filtering.py lines 188-197):
on the matched header line, exactly ten tab-separated fields and `FORMAT`
among them. -/
def assert_vcf_line (line : String) : Bool :=
  decide ((pySplit '\t' line).length = 10) && (pySplit '\t' line).contains "FORMAT"

/-- Embedding of `Check_VCF` (variant_filtering.py lines 180-205): scan the
file's lines for the FIRST line matching the anchored regex on `#CHROM`,
run the assertions on that line only, and stop (`break`); data records are
never examined, and a file with no `#CHROM` line passes vacuously.  `true`
models the check passing, `false` an AssertionError. -/
def Check_VCF (lines : List String) : Bool :=
  match lines.find? (fun l => pyStartsWith "#CHROM" l) with
  | some l => assert_vcf_line l
  | none => true

/-- The first FILTER metadata line injected by apply_filter.py line 48. -/
def xgbSnpLine : String :=
  "##FILTER=<ID=XGB_SNP,Description=\"Likely FP SNP as determined by loaded model\">"

/-- The second FILTER metadata line injected by apply_filter.py line 49. -/
def xgbIndLine : String :=
  "##FILTER=<ID=XGB_IND,Description=\"Likely FP InDel as determined by loaded model\">"

/-- The loop body of `Get_Header` (apply_filter.py lines 42-53).  The Python
condition combines the test for the text `FILTER` in the line with the test
for the column-header marker and the `filter_written == False` flag under
`or`/`and` precedence, and the flag is assigned only inside the branch:
short-circuit evaluation means a line containing `FILTER` ALWAYS triggers
the insertion (the flag is never consulted on that path), and a line
containing the column-header marker but not `FILTER` reads the flag, which
raises UnboundLocalError (modelled by the `none` state) unless an earlier
line already triggered the branch. -/
def getHeaderAux (fw : Option Bool) (acc : List String) :
    List String → Option (List String)
  | [] => some acc.reverse
  | l :: ls =>
    if pyStartsWith "#" l then
      if pyContains "FILTER" l then
        getHeaderAux (some true) (l :: xgbIndLine :: xgbSnpLine :: acc) ls
      else if pyContains "CHROM\tPOS" l then
        match fw with
        | none => none
        | some b =>
          if b = false then
            getHeaderAux (some true) (l :: xgbIndLine :: xgbSnpLine :: acc) ls
          else getHeaderAux fw (l :: acc) ls
      else getHeaderAux fw (l :: acc) ls
    else some acc.reverse

/-- Embedding of `Get_Header` (apply_filter.py lines 42-53): consume the
leading hash-prefixed lines, returning the collected header; `none` models
the UnboundLocalError path. -/
def Get_Header (lines : List String) : Option (List String) :=
  getHeaderAux none [] lines

/-- Embedding of `Is_Gzipped` (variant_filtering.py lines 208-219): the last
dot-separated component of the path's base name equals `gz`. -/
def Is_Gzipped (path : String) : Bool :=
  ((pySplit '.' ((pySplit '/' path).getLastD "")).getLastD "") == "gz"

/-- Embedding of `Get_Name` from the installed package
(variant_filtering.py lines 339-359): base file name with the last extension
stripped — and for a gzipped input the last TWO extensions stripped — plus
`.filter.vcf`. -/
def Get_Name (path : String) : String :=
  (if Is_Gzipped path then
    String.intercalate "." (((pySplit '.' ((pySplit '/' path).getLastD "")).dropLast).dropLast)
   else
    String.intercalate "." ((pySplit '.' ((pySplit '/' path).getLastD "")).dropLast))
  ++ ".filter.vcf"

/-- Embedding of the LOCAL `Get_Name` of the apply script
(apply_filter.py lines 113-117), which strips only the last extension and
has no gzip branch. -/
def Get_Name_apply (path : String) : String :=
  String.intercalate "." ((pySplit '.' ((pySplit '/' path).getLastD "")).dropLast)
  ++ ".filter.vcf"

/-- Embedding of `Predict_Var` (apply_filter.py lines 96-101): route the
first 11 feature cells of the row to the SNP model when `Is_SNP` is 1, else
to the indel model; the models are abstract functions standing for the
loaded classifiers. -/
def Predict_Var (snp ind : List FVal → Int) (params : List FVal) (isSnp : Nat) : Int :=
  if isSnp = 1 then snp params else ind params

/-- Embedding of `Add_Filter` (apply_filter.py lines 104-110). -/
def Add_Filter (isSnp : Nat) (predict : Int) : String :=
  if isSnp = 1 ∧ predict = 0 then "XGB_SNP"
  else if isSnp = 0 ∧ predict = 0 then "XGB_IND"
  else "."

/-- The ten columns of a record in the fixed output order used by
`to_csv` in `Write_VCF` (apply_filter.py lines 120-124); the FILTER column
sits at index 6. -/
def recFields (r : VRecord) : List String :=
  [r.chrom, r.pos, r.id, r.ref, r.alt, r.qual, r.filter, r.info, r.format, r.calls]

/-- Parse of an int64 cell as `read_csv` performs it: an optional minus sign
followed by a nonempty digit run. -/
def parseIntStr (s : String) : Option Int :=
  match s.toList with
  | '-' :: rest =>
    if rest.isEmpty then none
    else (digitsValAux 0 rest).map (fun n => -(n : Int))
  | cs =>
    if cs.isEmpty then none
    else (digitsValAux 0 cs).map (fun n => (n : Int))

/-- Canonical serialization of an int64 cell (`str` of the parsed integer):
leading zeros vanish and minus-zero collapses to zero; on a non-integer cell
(unreachable in an int64 column) the cell is left unchanged. -/
def canonIntStr (s : String) : String :=
  match parseIntStr s with
  | some n => toString n
  | none => s

/-- Strips leading zero digits, leaving at least one digit. -/
def canonDigitsLead (l : List Char) : List Char :=
  match l.dropWhile (fun c => c == '0') with
  | [] => ['0']
  | r => r

/-- Strips trailing zero digits, leaving at least one digit. -/
def canonDigitsTrail (l : List Char) : List Char :=
  (canonDigitsLead l.reverse).reverse

/-- Canonical form of an unsigned float literal: integer digits without
leading zeros, a decimal point, fractional digits without trailing zeros. -/
def canonFloatCore (s : String) : String :=
  match pySplit '.' s with
  | [ip] => String.mk (canonDigitsLead ip.toList) ++ ".0"
  | [ip, fp] =>
    String.mk (canonDigitsLead ip.toList) ++ "." ++
      String.mk (canonDigitsTrail fp.toList)
  | _ => s

/-- Canonical serialization of a float64 cell: this is the repr `to_csv`
writes back for decimal literals within float64's 15-significant-digit
round-trip range (every literal appearing in this development), e.g. 50.00
becomes 50.0, 342.60 becomes 342.6, 7 becomes 7.0 and .5 becomes 0.5;
pandas' scientific notation for extreme magnitudes is outside the model.
A cell that is no float literal (unreachable in a float64 column) is left
unchanged. -/
def canonFloatStr (s : String) : String :=
  match parseNum s with
  | none => s
  | some _ =>
    match s.toList with
    | '-' :: rest => "-" ++ canonFloatCore (String.mk rest)
    | _ => canonFloatCore s

/-- The dtype `read_csv` infers for one column of cells: int64 when every
cell is an integer literal, float64 when every cell is a float literal,
object (raw strings) otherwise. -/
inductive ColKind where
  | int64 : ColKind
  | float64 : ColKind
  | object : ColKind
deriving DecidableEq

/-- Dtype inference of `read_csv` for one column. -/
def colKind (col : List String) : ColKind :=
  if col.all (fun s => (parseIntStr s).isSome) then ColKind.int64
  else if col.all (fun s => (parseNum s).isSome) then ColKind.float64
  else ColKind.object

/-- Serialization of one cell by `to_csv` according to its column dtype:
int64 and float64 cells are re-serialized canonically from their parsed
values, object cells are written back verbatim. -/
def canonCell (k : ColKind) (s : String) : String :=
  match k with
  | ColKind.int64 => canonIntStr s
  | ColKind.float64 => canonFloatStr s
  | ColKind.object => s

/-- The `j`-th column of the parsed table. -/
def colOf (vcf : List VRecord) (j : Nat) : List String :=
  vcf.map (fun r => (recFields r).getD j "")

/-- The default NA tokens `read_csv` turns into NaN even inside an object
column; cells equal to one of these do not round-trip verbatim, so the
verbatim clause of the frame theorem excludes them explicitly (they are not
otherwise modelled). -/
def naTokens : List String :=
  ["", "NA", "N/A", "NaN", "nan", "NULL", "null", "None", "n/a", "<NA>"]

/-- Embedding of the apply workflow of apply_filter.py lines 127-147:
extract the feature table, classify each record, decide its filter tag, and
serialize each record back to the ten-tab-field layout — the FILTER column
is replaced by the tag, and every other column goes through the
`read_csv` dtype inference and `to_csv` re-serialization round trip
(`canonCell`), which rewrites all-numeric columns canonically and carries
object columns verbatim.  The feature extraction itself reads the raw
strings: whenever it succeeds, the INFO, FORMAT and CALLS columns contain
non-numeric cells (an equals sign, the GT key, a genotype with a slash), so
they are object columns whose parsed values are those raw strings; REF and
ALT of a variant table are base letters, likewise object. -/
def Apply_Pipeline (snp ind : List FVal → Int) (vcf : List VRecord) :
    Option (List String) :=
  match Feature_Table vcf with
  | none => none
  | some feats =>
    let kinds := (List.range 10).map (fun j => colKind (colOf vcf j))
    some ((feats.zip vcf).map (fun p =>
      String.intercalate "\t"
        (((List.range 10).map (fun j =>
            canonCell (kinds.getD j ColKind.object) ((recFields p.2).getD j ""))).set 6
          (Add_Filter (Check_SNP p.2.ref p.2.alt)
            (Predict_Var snp ind p.1 (Check_SNP p.2.ref p.2.alt))))))

/-- C1: `Check_SNP` classifies every record exactly as the specification rule
`classifyType` prescribes (1 on SNP, 0 on INDEL), and on the four concrete
examples: ref A alt T is a SNP, ref A alt AT is an INDEL, ref A alt T,AT is
a SNP, ref AT alt A,GC is an INDEL. -/
theorem check_snp_follows_spec : ∀ ref alt : String,
    ((Check_SNP ref alt = 1) ↔ classifyTypeSpec ref alt = VariantType.SNP) ∧
    ((Check_SNP ref alt = 0) ↔ classifyTypeSpec ref alt = VariantType.INDEL) ∧
    Check_SNP "A" "T" = 1 ∧ Check_SNP "A" "AT" = 0 ∧
    Check_SNP "A" "T,AT" = 1 ∧ Check_SNP "AT" "A,GC" = 0 := by
  intro ref alt
  refine ⟨?_, ?_, by decide, by decide, by decide, by decide⟩ <;>
    (unfold Check_SNP classifyTypeSpec; split_ifs <;> simp_all)

theorem pairOfPart_split {part : String} {p : String × String}
    (h : pairOfPart part = some p) : pySplit '=' part = [p.1, p.2] := by
  unfold pairOfPart at h
  split at h
  · cases h; simp_all
  · cases h

theorem pairOfPart_isSome_of_len {part : String}
    (h : (pySplit '=' part).length = 2) : (pairOfPart part).isSome = true := by
  unfold pairOfPart
  split
  · rfl
  · rename_i hne
    cases hl : pySplit '=' part with
    | nil => rw [hl] at h; simp at h
    | cons a t =>
      cases t with
      | nil => rw [hl] at h; simp at h
      | cons b u =>
        cases u with
        | nil => exact absurd hl (fun hh => hne a b hh)
        | cons c w =>
          rw [hl] at h
          simp only [List.length_cons] at h
          omega

theorem collectPairs_mem : ∀ l ps, collectPairs l = some ps →
    ∀ p ∈ ps, ∃ part ∈ l, pairOfPart part = some p := by
  intro l
  induction l with
  | nil => intro ps h p hp; cases h; cases hp
  | cons hd tl ih =>
    intro ps h p hp
    unfold collectPairs at h
    cases hkv : pairOfPart hd with
    | none => rw [hkv] at h; cases h
    | some kv =>
      rw [hkv] at h
      cases hrest : collectPairs tl with
      | none => rw [hrest] at h; cases h
      | some rest =>
        rw [hrest] at h
        cases h
        cases hp with
        | head => exact ⟨hd, List.mem_cons_self _ _, hkv⟩
        | tail _ hp2 =>
          obtain ⟨part, hmem, hpp⟩ := ih rest hrest p hp2
          exact ⟨part, List.mem_cons_of_mem _ hmem, hpp⟩

theorem collectPairs_isSome : ∀ l, (∀ part ∈ l, (pairOfPart part).isSome = true) →
    (collectPairs l).isSome = true := by
  intro l
  induction l with
  | nil => intro _; rfl
  | cons hd tl ih =>
    intro h
    unfold collectPairs
    cases hkv : pairOfPart hd with
    | none =>
      have := h hd (List.mem_cons_self _ _)
      rw [hkv] at this; cases this
    | some kv =>
      cases hrest : collectPairs tl with
      | none =>
        have := ih (fun part hp => h part (List.mem_cons_of_mem _ hp))
        rw [hrest] at this; cases this
      | some rest => rfl

/-- C3 counterexample: the INFO part `RAW_MQ=750.00` contains the pattern
`MQ=` as a substring, so `Split_Info` keeps it and returns a mapping whose
key `RAW_MQ` is NOT one of the six recognized keys, and whose value is the
raw string rather than a parsed float. -/
theorem split_info_counterexample :
    Split_Info "RAW_MQ=750.00" = some [("RAW_MQ", "750.00")] ∧
    sixKeys.contains "RAW_MQ" = false := by
  exact ⟨by decide, by decide⟩

/-- C3 (amended): every pair returned by `Split_Info` comes from a semicolon
part of the INFO field that is kept by the substring filter, with the key and
the RAW (unparsed) value being the two segments around the equals sign — so
the key set is that of the kept parts, not necessarily a subset of the six
recognized keys; and `Split_Info` never fails on an INFO field whose kept
parts each contain exactly one equals sign (unrecognized extra keys are
either filtered out or kept harmlessly). -/
theorem split_info_amended : ∀ info : String,
    (∀ ps, Split_Info info = some ps →
      ∀ p ∈ ps, ∃ part ∈ pySplit ';' info,
        keepPart part = true ∧ pySplit '=' part = [p.1, p.2]) ∧
    (((pySplit ';' info).filter keepPart).all
        (fun part => (pySplit '=' part).length = 2) = true →
      (Split_Info info).isSome = true) := by
  intro info
  constructor
  · intro ps h p hp
    obtain ⟨part, hmem, hpp⟩ := collectPairs_mem _ _ h p hp
    rw [List.mem_filter] at hmem
    exact ⟨part, hmem.1, hmem.2, pairOfPart_split hpp⟩
  · intro hall
    apply collectPairs_isSome
    intro part hmem
    rw [List.all_eq_true] at hall
    have := hall part hmem
    exact pairOfPart_isSome_of_len (by simpa using this)

/-- C3 witness: on an INFO field with an unrecognized key and a valueless
flag, `Split_Info` succeeds, and the pair QD, 1.5 it returns is traceable to
the kept part `QD=1.5`. -/
theorem split_info_amended_witness :
    (Split_Info "QD=1.5;FOO=2;MQ=60.00;DS").isSome = true ∧
    (∃ part ∈ pySplit ';' "QD=1.5;FOO=2;MQ=60.00;DS",
      keepPart part = true ∧ pySplit '=' part = ["QD", "1.5"]) := by
  have h := split_info_amended "QD=1.5;FOO=2;MQ=60.00;DS"
  refine ⟨h.2 (by decide), ?_⟩
  have h2 := h.1 [("QD", "1.5"), ("MQ", "60.00")] (by decide)
    ("QD", "1.5") (by decide)
  exact h2

theorem callsRowOf_spec {gt ad : Option String} {r : CallsRow}
    (h : callsRowOf gt ad = some r) :
    r.het = (if gt = some "0/1" then 1 else 0) ∧
    some r.refD = toNumericCell (ad.map (fun s => (pySplit ',' s).getD 0 "")) ∧
    some r.altD = toNumericCell (ad.bind (fun s => (pySplit ',' s).get? 1)) ∧
    r.rdper = pDiv r.refD (pAdd r.refD r.altD) ∧
    r.adrat = pDiv r.altD (pAdd r.refD (PFloat.val (1 / 10))) := by
  unfold callsRowOf at h
  cases h1 : toNumericCell (ad.map (fun s => (pySplit ',' s).getD 0 "")) with
  | none => rw [h1] at h; cases h
  | some rd =>
    rw [h1] at h
    cases h2 : toNumericCell (ad.bind (fun s => (pySplit ',' s).get? 1)) with
    | none => rw [h2] at h; cases h
    | some ad1 =>
      rw [h2] at h
      cases h
      exact ⟨rfl, rfl, rfl, rfl, rfl⟩

theorem collectRows_spec : ∀ (l : List (Option String × Option String)) rows,
    collectRows l = some rows →
    rows.length = l.length ∧
    ∀ i (h1 : i < l.length) (h2 : i < rows.length),
      callsRowOf (l.get ⟨i, h1⟩).1 (l.get ⟨i, h1⟩).2 = some (rows.get ⟨i, h2⟩) := by
  intro l
  induction l with
  | nil =>
    intro rows h
    cases h
    exact ⟨rfl, fun i h1 _ => absurd h1 (Nat.not_lt_zero i)⟩
  | cons hd tl ih =>
    intro rows h
    unfold collectRows at h
    cases hr : callsRowOf hd.1 hd.2 with
    | none => rw [hr] at h; cases h
    | some r =>
      rw [hr] at h
      cases hrest : collectRows tl with
      | none => rw [hrest] at h; cases h
      | some rs =>
        rw [hrest] at h
        cases h
        obtain ⟨hlen, hidx⟩ := ih rs hrest
        refine ⟨by simp [hlen], ?_⟩
        intro i h1 h2
        cases i with
        | zero => exact hr
        | succ j =>
          exact hidx j (Nat.lt_of_succ_lt_succ h1) (Nat.lt_of_succ_lt_succ h2)

/-- C2 (amended): whenever `Get_Calls_Info` succeeds on a record table (which
requires the colon-split CALLS columns to number exactly the first record's
FORMAT keys — shorter rows padded with `None` — unique `GT` and `AD` keys,
some record with the non-null genotype literal `0/1`, the comma-split AD
sub-fields expanding to exactly three columns, and every present AD part
numeric), it produces one row per record with: the heterozygosity indicator
1 exactly when the GT cell is the non-null literal `0/1` and 0 otherwise
(including padded cells); the reference and alternate depths equal to the
`to_numeric` images of the first two comma-separated AD values, a missing or
padded part passing through as NaN and third and later values discarded;
`RDper = refD / (refD + altD)` and `ADrat = altD / (refD + 0.1)` under
float64 semantics (NaN propagating, zero over zero NaN, nonzero over zero a
signed infinity). -/
theorem get_calls_info_values :
    ∀ (vcf : List VRecord) (r0 : VRecord) (rows : List CallsRow),
    vcf.head? = some r0 →
    Get_Calls_Info vcf = some rows →
    ∃ g a,
      (pySplit ':' r0.format).findIdx? (fun k => k == "GT") = some g ∧
      (pySplit ':' r0.format).findIdx? (fun k => k == "AD") = some a ∧
      rows.length = vcf.length ∧
      ∀ i (hi : i < vcf.length) (hri : i < rows.length),
        (rows.get ⟨i, hri⟩).het =
          (if (pySplit ':' (vcf.get ⟨i, hi⟩).calls).get? g = some "0/1" then 1 else 0) ∧
        some (rows.get ⟨i, hri⟩).refD =
          toNumericCell (((pySplit ':' (vcf.get ⟨i, hi⟩).calls).get? a).map
            (fun s => (pySplit ',' s).getD 0 "")) ∧
        some (rows.get ⟨i, hri⟩).altD =
          toNumericCell (((pySplit ':' (vcf.get ⟨i, hi⟩).calls).get? a).bind
            (fun s => (pySplit ',' s).get? 1)) ∧
        (rows.get ⟨i, hri⟩).rdper =
          pDiv (rows.get ⟨i, hri⟩).refD
            (pAdd (rows.get ⟨i, hri⟩).refD (rows.get ⟨i, hri⟩).altD) ∧
        (rows.get ⟨i, hri⟩).adrat =
          pDiv (rows.get ⟨i, hri⟩).altD
            (pAdd (rows.get ⟨i, hri⟩).refD (PFloat.val (1 / 10))) := by
  intro vcf r0 rows hhead h
  unfold Get_Calls_Info at h
  rw [hhead] at h
  simp only at h
  split at h
  · rename_i hall
    split at h
    · rename_i g a hg ha
      split at h
      · split at h
        · split at h
          · refine ⟨g, a, hg, ha, ?_⟩
            obtain ⟨hlen, hidx⟩ := collectRows_spec _ _ h
            have hzlen :
                (((vcf.map (fun r => pySplit ':' r.calls)).map
                    (fun row => row.get? g)).zip
                  ((vcf.map (fun r => pySplit ':' r.calls)).map
                    (fun row => row.get? a))).length = vcf.length := by
              simp
            constructor
            · rw [hlen, hzlen]
            · intro i hi hri
              have hil : i <
                  (((vcf.map (fun r => pySplit ':' r.calls)).map
                      (fun row => row.get? g)).zip
                    ((vcf.map (fun r => pySplit ':' r.calls)).map
                      (fun row => row.get? a))).length := by
                rw [hzlen]; exact hi
              have hrow := hidx i hil hri
              simp only [List.get_eq_getElem, List.getElem_zip, List.getElem_map] at hrow
              have hspec := callsRowOf_spec hrow
              simpa only [List.get_eq_getElem] using hspec
          · cases h
        · cases h
      · cases h
    · cases h
  · cases h

/-- C2 counterexample: a one-record table whose CALLS field zips perfectly
with its FORMAT field (two keys `GT:AD`, two values `0/1:10,5`) and whose AD
carries the usual two depths; because the comma-split AD column then expands
to only two columns, the source's assignment of the three column names
`RefD`, `AltD`, `AltAltD` raises a length-mismatch ValueError, so the
extraction produces no values at all instead of the claimed per-record
outputs. -/
theorem get_calls_info_counterexample :
    (pySplit ':' "0/1:10,5").length = (pySplit ':' "GT:AD").length ∧
    Get_Calls_Info
      [⟨"1", "100", ".", "A", "T", "50", ".", "QD=1", "GT:AD", "0/1:10,5"⟩] = none := by
  exact ⟨by decide, by decide⟩

/-- C2 witness: on a concrete two-record table whose second AD has a single
part (`0/1:7`, the padded second depth becoming NaN rather than an error)
the extraction succeeds and `get_calls_info_values` applies, giving one row
per record. -/
theorem get_calls_info_values_witness :
    (Get_Calls_Info
      [⟨"1", "100", ".", "A", "T", "50", ".", "QD=1", "GT:AD", "0/1:10,5,0"⟩,
       ⟨"1", "101", ".", "A", "T", "50", ".", "QD=2", "GT:AD", "0/1:7"⟩]).isSome = true ∧
    ((Get_Calls_Info
      [⟨"1", "100", ".", "A", "T", "50", ".", "QD=1", "GT:AD", "0/1:10,5,0"⟩,
       ⟨"1", "101", ".", "A", "T", "50", ".", "QD=2", "GT:AD", "0/1:7"⟩]).getD []).length = 2 := by
  have hs : (Get_Calls_Info
      [⟨"1", "100", ".", "A", "T", "50", ".", "QD=1", "GT:AD", "0/1:10,5,0"⟩,
       ⟨"1", "101", ".", "A", "T", "50", ".", "QD=2", "GT:AD", "0/1:7"⟩]).isSome = true := by
    decide
  obtain ⟨rows, hr⟩ := Option.isSome_iff_exists.mp hs
  obtain ⟨g, a, hg, ha, hlen, hvals⟩ := get_calls_info_values
    [⟨"1", "100", ".", "A", "T", "50", ".", "QD=1", "GT:AD", "0/1:10,5,0"⟩,
     ⟨"1", "101", ".", "A", "T", "50", ".", "QD=2", "GT:AD", "0/1:7"⟩]
    ⟨"1", "100", ".", "A", "T", "50", ".", "QD=1", "GT:AD", "0/1:10,5,0"⟩ rows rfl hr
  refine ⟨hs, ?_⟩
  rw [hr]
  simpa using hlen

theorem get_calls_info_congr (v1 v2 : List VRecord)
    (hhead : v1.head?.map VRecord.format = v2.head?.map VRecord.format)
    (hcalls : v1.map VRecord.calls = v2.map VRecord.calls) :
    Get_Calls_Info v1 = Get_Calls_Info v2 := by
  unfold Get_Calls_Info
  cases h1 : v1.head? with
  | none =>
    cases h2 : v2.head? with
    | none => rfl
    | some r2 => rw [h1, h2] at hhead; simp at hhead
  | some r1 =>
    cases h2 : v2.head? with
    | none => rw [h1, h2] at hhead; simp at hhead
    | some r2 =>
      rw [h1, h2] at hhead
      simp only [Option.map_some', Option.some.injEq] at hhead
      have hrows : v1.map (fun r => pySplit ':' r.calls) =
          v2.map (fun r => pySplit ':' r.calls) := by
        have hx := congrArg (List.map (pySplit ':')) hcalls
        simpa [List.map_map, Function.comp] using hx
      simp only [hhead, hrows]

/-- C10: the calls extraction interprets every record's colon-split CALLS
values using the FORMAT string of the FIRST record only
(`vcf['FORMAT'][0]`): replacing the FORMAT field of any record other than the
first by an arbitrary string leaves the whole extraction result unchanged, so
a record whose own FORMAT differs from the first in key order or key set has
its call values silently assigned under the first record's keys. -/
theorem get_calls_info_first_format_only :
    ∀ (vcf : List VRecord) (i : ℕ) (hi : i < vcf.length) (f : String), i ≠ 0 →
    Get_Calls_Info (vcf.set i { vcf.get ⟨i, hi⟩ with format := f }) =
      Get_Calls_Info vcf := by
  intro vcf i hi f hne
  apply get_calls_info_congr
  · cases vcf with
    | nil => simp
    | cons a t =>
      cases i with
      | zero => exact absurd rfl hne
      | succ j => simp [List.set]
  · rw [List.map_set]
    apply List.ext_getElem?
    intro n
    rw [List.getElem?_set]
    by_cases hin : i = n
    · subst hin
      simp only [List.length_map, hi, if_pos, if_pos rfl]
      rw [List.getElem?_eq_getElem (by simpa using hi)]
      simp [List.getElem_map, List.get_eq_getElem]
    · simp [hin]

/-- C10 witness: in a concrete two-record table whose second record carries
the FORMAT `AD:GT` (opposite key order), rewriting that FORMAT to anything
else, here `ZZ`, does not change the extraction result, which stays defined
by the first record's `GT:AD` keys. -/
theorem get_calls_info_first_format_only_witness :
    Get_Calls_Info
      ([⟨"1", "100", ".", "A", "T", "50", ".", "QD=1", "GT:AD", "0/1:10,5,0"⟩,
        ⟨"1", "101", ".", "A", "T", "50", ".", "QD=2", "AD:GT", "0/1:1,2,3"⟩].set 1
        ⟨"1", "101", ".", "A", "T", "50", ".", "QD=2", "ZZ", "0/1:1,2,3"⟩) =
      Get_Calls_Info
        [⟨"1", "100", ".", "A", "T", "50", ".", "QD=1", "GT:AD", "0/1:10,5,0"⟩,
         ⟨"1", "101", ".", "A", "T", "50", ".", "QD=2", "AD:GT", "0/1:1,2,3"⟩] ∧
    (Get_Calls_Info
      [⟨"1", "100", ".", "A", "T", "50", ".", "QD=1", "GT:AD", "0/1:10,5,0"⟩,
       ⟨"1", "101", ".", "A", "T", "50", ".", "QD=2", "AD:GT", "0/1:1,2,3"⟩]).isSome = true := by
  constructor
  · exact get_calls_info_first_format_only
      [⟨"1", "100", ".", "A", "T", "50", ".", "QD=1", "GT:AD", "0/1:10,5,0"⟩,
       ⟨"1", "101", ".", "A", "T", "50", ".", "QD=2", "AD:GT", "0/1:1,2,3"⟩]
      1 (by decide) "ZZ" (by decide)
  · decide

theorem get_calls_info_len : ∀ vcf calls, Get_Calls_Info vcf = some calls →
    calls.length = vcf.length := by
  intro vcf calls h
  unfold Get_Calls_Info at h
  cases hh : vcf.head? with
  | none => rw [hh] at h; cases h
  | some r0 =>
    rw [hh] at h
    simp only at h
    split at h
    · split at h
      · split at h
        · split at h
          · split at h
            · have hl := (collectRows_spec _ _ h).1
              simpa using hl
            · cases h
          · cases h
        · cases h
      · cases h
    · cases h

theorem collectInfos_spec : ∀ (vcf : List VRecord) ds,
    collectInfos vcf = some ds →
    ds.length = vcf.length ∧
    ∀ i (h1 : i < vcf.length) (h2 : i < ds.length),
      Split_Info (vcf.get ⟨i, h1⟩).info = some (ds.get ⟨i, h2⟩) := by
  intro vcf
  induction vcf with
  | nil =>
    intro ds h
    cases h
    exact ⟨rfl, fun i h1 _ => absurd h1 (Nat.not_lt_zero i)⟩
  | cons hd tl ih =>
    intro ds h
    unfold collectInfos at h
    cases hr : Split_Info hd.info with
    | none => rw [hr] at h; cases h
    | some d =>
      rw [hr] at h
      cases hrest : collectInfos tl with
      | none => rw [hrest] at h; cases h
      | some rest =>
        rw [hrest] at h
        cases h
        obtain ⟨hlen, hidx⟩ := ih rest hrest
        refine ⟨by simp [hlen], ?_⟩
        intro i h1 h2
        cases i with
        | zero => exact hr
        | succ j =>
          exact hidx j (Nat.lt_of_succ_lt_succ h1) (Nat.lt_of_succ_lt_succ h2)

theorem infoRow_getD {d : List (String × String)} {j : ℕ} (hj : j < 6)
    (x : FVal) :
    (infoRow d).getD j x =
      (match lookupLast (sixKeys.getD j "") d with
       | some v => FVal.str v
       | none => FVal.num (PFloat.val 0)) := by
  have h6 : (infoRow d).length = 6 := by simp [infoRow, sixKeys]
  have hjl : j < (infoRow d).length := by rw [h6]; exact hj
  rw [List.getD_eq_getElem _ _ hjl]
  have hjs : j < sixKeys.length := by simp [sixKeys]; omega
  unfold infoRow
  rw [List.getElem_map]
  congr 1
  rw [List.getD_eq_getElem _ _ hjs]

/-- C4 counterexample: a one-record table whose INFO field carries only
`QD=1.0` and whose CALLS extraction is perfectly well formed; the recognized
key `MQ` (and four others) is absent from every record, so the pandas column
selection raises a KeyError and `Make_Table` fails instead of contributing
0.0 for the missing keys. -/
theorem make_table_counterexample :
    (Get_Calls_Info
      [⟨"1", "100", ".", "A", "T", "50", ".", "QD=1.0", "GT:AD", "0/1:10,5,0"⟩]).isSome = true ∧
    Split_Info "QD=1.0" = some [("QD", "1.0")] ∧
    Make_Table
      [⟨"1", "100", ".", "A", "T", "50", ".", "QD=1.0", "GT:AD", "0/1:10,5,0"⟩] 1 = none := by
  exact ⟨by decide, by decide, by decide⟩

/-- C4 (amended): whenever `Make_Table` succeeds — which requires every one
of the six recognized INFO keys to occur in at least one record of the table
— each record yields a row of exactly 11 cells in the fixed order QD, MQ,
FS, MQRankSum, ReadPosRankSum, SOR, isHet, RefDepth, AltDepth,
RefDepthFraction, AltToRefRatio, where a recognized INFO key absent from
THAT record's INFO field contributes the value 0.0 and a present key
contributes its raw string value. -/
theorem make_table_rows :
    ∀ (vcf : List VRecord) (label : ℚ) (t : List (List FVal × ℚ)),
    Make_Table vcf label = some t →
    t.length = vcf.length ∧
    ∀ i (hi : i < vcf.length) (ht : i < t.length),
      (t.get ⟨i, ht⟩).2 = label ∧
      (t.get ⟨i, ht⟩).1.length = 11 ∧
      ∀ d, Split_Info (vcf.get ⟨i, hi⟩).info = some d →
        (∀ j, j < 6 →
          (lookupLast (sixKeys.getD j "") d = none →
            (t.get ⟨i, ht⟩).1.getD j (FVal.num (PFloat.val 99)) = FVal.num (PFloat.val 0)) ∧
          (∀ v, lookupLast (sixKeys.getD j "") d = some v →
            (t.get ⟨i, ht⟩).1.getD j (FVal.num (PFloat.val 99)) = FVal.str v)) ∧
        (∀ calls, Get_Calls_Info vcf = some calls → ∀ hc : i < calls.length,
          (t.get ⟨i, ht⟩).1 =
            infoRow d ++
              [FVal.num (PFloat.val (calls.get ⟨i, hc⟩).het), FVal.num (calls.get ⟨i, hc⟩).refD,
               FVal.num (calls.get ⟨i, hc⟩).altD, FVal.num (calls.get ⟨i, hc⟩).rdper,
               FVal.num (calls.get ⟨i, hc⟩).adrat]) := by
  intro vcf label t h
  unfold Make_Table at h
  rw [Option.map_eq_some'] at h
  obtain ⟨ft, hft, hmap⟩ := h
  unfold Feature_Table at hft
  cases hci : collectInfos vcf with
  | none => rw [hci] at hft; cases hft
  | some ds =>
    rw [hci] at hft
    simp only at hft
    split at hft
    · rename_i hall
      cases hgc : Get_Calls_Info vcf with
      | none => rw [hgc] at hft; cases hft
      | some calls0 =>
        rw [hgc] at hft
        cases hft
        obtain ⟨hdlen, hdidx⟩ := collectInfos_spec _ _ hci
        have hclen : calls0.length = vcf.length := get_calls_info_len _ _ hgc
        have hzlen : (ds.zip calls0).length = vcf.length := by
          simp [List.length_zip, hdlen, hclen]
        subst hmap
        have htlen : (((ds.zip calls0).map (fun p =>
            infoRow p.1 ++
              [FVal.num (PFloat.val p.2.het), FVal.num p.2.refD, FVal.num p.2.altD,
               FVal.num p.2.rdper, FVal.num p.2.adrat])).map
            (fun row => (row, label))).length = vcf.length := by
          simp [hzlen]
        refine ⟨htlen, ?_⟩
        intro i hi ht
        have hiz : i < (ds.zip calls0).length := by rw [hzlen]; exact hi
        have hids : i < ds.length := by rw [hdlen]; exact hi
        have hic : i < calls0.length := by rw [hclen]; exact hi
        have hrow : ∀ (hx : i < (((ds.zip calls0).map (fun p =>
            infoRow p.1 ++
              [FVal.num (PFloat.val p.2.het), FVal.num p.2.refD, FVal.num p.2.altD,
               FVal.num p.2.rdper, FVal.num p.2.adrat])).map
            (fun row => (row, label))).length),
            ((((ds.zip calls0).map (fun p =>
              infoRow p.1 ++
                [FVal.num (PFloat.val p.2.het), FVal.num p.2.refD, FVal.num p.2.altD,
                 FVal.num p.2.rdper, FVal.num p.2.adrat])).map
              (fun row => (row, label))).get ⟨i, hx⟩) =
            (infoRow (ds.get ⟨i, hids⟩) ++
              [FVal.num (PFloat.val (calls0.get ⟨i, hic⟩).het), FVal.num (calls0.get ⟨i, hic⟩).refD,
               FVal.num (calls0.get ⟨i, hic⟩).altD, FVal.num (calls0.get ⟨i, hic⟩).rdper,
               FVal.num (calls0.get ⟨i, hic⟩).adrat], label) := by
          intro hx
          simp [List.get_eq_getElem, List.getElem_map, List.getElem_zip]
        rw [hrow ht]
        refine ⟨rfl, by simp [infoRow, sixKeys], ?_⟩
        intro d hd
        have hdeq : d = ds.get ⟨i, hids⟩ := by
          have hd2 := hdidx i hi hids
          rw [hd] at hd2
          exact Option.some.inj hd2
        subst hdeq
        constructor
        · intro j hj
          constructor
          · intro hnone
            rw [List.getD_append _ _ _ _ (by simp [infoRow, sixKeys]; omega)]
            rw [infoRow_getD hj]
            rw [hnone]
          · intro v hv
            rw [List.getD_append _ _ _ _ (by simp [infoRow, sixKeys]; omega)]
            rw [infoRow_getD hj]
            rw [hv]
        · intro calls hcalls hc
          have hceq : calls0 = calls := Option.some.inj hcalls
          subst hceq
          rfl
    · cases hft

/-- C4 witness: on `mtW` the table construction succeeds with one row per
record, and in the second record's row the MQ cell (position 1) is the
0.0 default while the QD cell (position 0) is the raw string value. -/
theorem make_table_rows_witness :
    (Make_Table mtW 1).isSome = true ∧
    ((Make_Table mtW 1).getD []).length = 2 ∧
    ((((Make_Table mtW 1).getD []).getD 1 ([], 0)).1).getD 1 (FVal.num (PFloat.val 99)) = FVal.num (PFloat.val 0) ∧
    ((((Make_Table mtW 1).getD []).getD 1 ([], 0)).1).getD 0 (FVal.num (PFloat.val 99)) = FVal.str "2.0" := by
  have hs : (Make_Table mtW 1).isSome = true := by decide
  obtain ⟨t, hts⟩ := Option.isSome_iff_exists.mp hs
  obtain ⟨hlen, hidx⟩ := make_table_rows mtW 1 t hts
  have h1 : (1 : ℕ) < mtW.length := by decide
  have ht1 : (1 : ℕ) < t.length := by rw [hlen]; exact h1
  obtain ⟨hlab, hlen11, hinfo⟩ := hidx 1 h1 ht1
  have hinfoeq : (mtW.get ⟨1, h1⟩).info = "QD=2.0" := rfl
  have hd : Split_Info ((mtW.get ⟨1, h1⟩).info) = some [("QD", "2.0")] := by
    rw [hinfoeq]
    decide
  obtain ⟨hjs, hcomp⟩ := hinfo [("QD", "2.0")] hd
  have hMQ := (hjs 1 (by decide)).1 (by decide)
  have hQD := (hjs 0 (by decide)).2 "2.0" (by decide)
  refine ⟨hs, ?_, ?_, ?_⟩
  · rw [hts]
    simp only [Option.getD_some]
    rw [hlen]
    decide
  · rw [hts]
    simp only [Option.getD_some]
    rw [List.getD_eq_getElem _ _ ht1]
    simpa [List.get_eq_getElem] using hMQ
  · rw [hts]
    simp only [Option.getD_some]
    rw [List.getD_eq_getElem _ _ ht1]
    simpa [List.get_eq_getElem] using hQD

theorem pySplitAux_no_sep {c : Char} : ∀ (xs acc : List Char),
    (∀ x ∈ xs, x ≠ c) →
    pySplitAux c xs acc = [String.mk (acc.reverse ++ xs)] := by
  intro xs
  induction xs with
  | nil => intro acc _; simp [pySplitAux]
  | cons x xs ih =>
    intro acc hx
    have hxc : x ≠ c := hx x (List.mem_cons_self _ _)
    simp only [pySplitAux, if_neg hxc]
    rw [ih (x :: acc) (fun y hy => hx y (List.mem_cons_of_mem _ hy))]
    simp

theorem containsAux_single_false {c : Char} : ∀ (l : List Char),
    containsAux [c] l = false → ∀ x ∈ l, x ≠ c := by
  intro l
  induction l with
  | nil => intro _ x hx; cases hx
  | cons y ys ih =>
    intro h x hx
    simp only [containsAux, List.isPrefixOf, Bool.or_eq_false_iff,
      Bool.and_eq_false_iff] at h
    cases hx with
    | head =>
      intro heq
      subst heq
      rcases h.1 with h1 | h1
      · simp at h1
      · simp [List.isPrefixOf] at h1
    | tail _ hmem => exact ih h.2 x hmem

theorem pySplit_no_comma {s : String} (h : pyContains "," s = false) :
    pySplit ',' s = [s] := by
  unfold pySplit
  have hchars : ∀ x ∈ s.toList, x ≠ ',' := by
    apply containsAux_single_false
    simpa [pyContains] using h
  rw [pySplitAux_no_sep s.toList [] hchars]
  rfl

theorem feature_table_len : ∀ (vcf : List VRecord) t,
    Feature_Table vcf = some t → t.length = vcf.length := by
  intro vcf t h
  unfold Feature_Table at h
  cases hci : collectInfos vcf with
  | none => rw [hci] at h; cases h
  | some ds =>
    rw [hci] at h
    simp only at h
    split at h
    · cases hgc : Get_Calls_Info vcf with
      | none => rw [hgc] at h; cases h
      | some calls =>
        rw [hgc] at h
        cases h
        have h1 := (collectInfos_spec _ _ hci).1
        have h2 := get_calls_info_len _ _ hgc
        simp [List.length_zip, h1, h2]
    · cases h

theorem make_table_len : ∀ (vcf : List VRecord) label t,
    Make_Table vcf label = some t → t.length = vcf.length := by
  intro vcf label t h
  unfold Make_Table at h
  rw [Option.map_eq_some'] at h
  obtain ⟨ft, hft, hmap⟩ := h
  subst hmap
  simpa using feature_table_len _ _ hft

theorem get_training_tables_len {fetch : String → List VRecord}
    {pr : String × String} {t : List (List FVal × ℚ)}
    (h : Get_Training_Tables fetch pr = some t) :
    t.length = (fetch pr.1).length + (fetch pr.2).length := by
  unfold Get_Training_Tables at h
  cases h1 : Make_Table (fetch pr.1) 1 with
  | none => rw [h1] at h; cases h
  | some tp =>
    rw [h1] at h
    cases h2 : Make_Table (fetch pr.2) 0 with
    | none => rw [h2] at h; cases h
    | some fp =>
      rw [h2] at h
      cases h
      simp [make_table_len _ _ _ h1, make_table_len _ _ _ h2]

theorem collectTables_len {fetch : String → List VRecord} :
    ∀ (ps : List (String × String)) ts,
    collectTables fetch ps = some ts →
    ts.flatten.length =
      (ps.map (fun pr => (fetch pr.1).length + (fetch pr.2).length)).sum := by
  intro ps
  induction ps with
  | nil => intro ts h; cases h; rfl
  | cons p ps ih =>
    intro ts h
    unfold collectTables at h
    cases h1 : Get_Training_Tables fetch p with
    | none => rw [h1] at h; cases h
    | some t =>
      rw [h1] at h
      cases h2 : collectTables fetch ps with
      | none => rw [h2] at h; cases h
      | some rest =>
        rw [h2] at h
        cases h
        simp [List.flatten, get_training_tables_len h1, ih rest h2]

theorem get_training_tables_spec {fetch : String → List VRecord}
    {pr : String × String} {t : List (List FVal × ℚ)}
    (h : Get_Training_Tables fetch pr = some t) :
    ∃ ttp tfp,
      Make_Table (fetch pr.1) 1 = some ttp ∧
      Make_Table (fetch pr.2) 0 = some tfp ∧
      t = ttp ++ tfp := by
  unfold Get_Training_Tables at h
  cases h1 : Make_Table (fetch pr.1) 1 with
  | none => rw [h1] at h; cases h
  | some ttp =>
    rw [h1] at h
    cases h2 : Make_Table (fetch pr.2) 0 with
    | none => rw [h2] at h; cases h
    | some tfp =>
      rw [h2] at h
      cases h
      exact ⟨ttp, tfp, rfl, rfl, rfl⟩

theorem collectTables_spec {fetch : String → List VRecord} :
    ∀ (ps : List (String × String)) ts,
    collectTables fetch ps = some ts →
    ts.length = ps.length ∧
    ∀ i (h1 : i < ps.length) (h2 : i < ts.length),
      Get_Training_Tables fetch (ps.get ⟨i, h1⟩) = some (ts.get ⟨i, h2⟩) := by
  intro ps
  induction ps with
  | nil =>
    intro ts h
    cases h
    exact ⟨rfl, fun i h1 _ => absurd h1 (Nat.not_lt_zero i)⟩
  | cons p ps ih =>
    intro ts h
    unfold collectTables at h
    cases h1 : Get_Training_Tables fetch p with
    | none => rw [h1] at h; cases h
    | some t =>
      rw [h1] at h
      cases h2 : collectTables fetch ps with
      | none => rw [h2] at h; cases h
      | some rest =>
        rw [h2] at h
        cases h
        obtain ⟨hlen, hidx⟩ := ih rest h2
        refine ⟨by simp [hlen], ?_⟩
        intro i hp ht
        cases i with
        | zero => exact h1
        | succ j =>
          exact hidx j (Nat.lt_of_succ_lt_succ hp) (Nat.lt_of_succ_lt_succ ht)

/-- C6 (amended): the path-list check is a pure function of the two path
strings (no file content enters it), and whenever the comma-split lists have
different lengths it raises, so the whole training run fails before any file
is opened; when it passes and every pair's table construction succeeds, the
final training table is EXACTLY the concatenation, in input pair order, of
the per-pair sub-tables (each itself the true-positive table labelled 1
followed by the false-positive table labelled 0), and its row count is the
sum over the zipped path pairs of the two files' record counts — one row
per input record. -/
theorem train_main_rowcount :
    ∀ (fetch : String → List VRecord) (tp fp : String),
    ((pySplit ',' tp).length ≠ (pySplit ',' fp).length →
      Check_VCF_Paths tp fp = none ∧ Train_Main fetch tp fp = none) ∧
    (∀ t, Train_Main fetch tp fp = some t →
      ∃ ts : List (List (List FVal × ℚ)),
        t = ts.flatten ∧
        ts.length = ((pySplit ',' tp).zip (pySplit ',' fp)).length ∧
        (∀ i (hp : i < ((pySplit ',' tp).zip (pySplit ',' fp)).length)
            (hts : i < ts.length),
          ∃ ttp tfp,
            Make_Table
              (fetch ((((pySplit ',' tp).zip (pySplit ',' fp)).get ⟨i, hp⟩).1)) 1 =
              some ttp ∧
            Make_Table
              (fetch ((((pySplit ',' tp).zip (pySplit ',' fp)).get ⟨i, hp⟩).2)) 0 =
              some tfp ∧
            ts.get ⟨i, hts⟩ = ttp ++ tfp) ∧
        t.length = (((pySplit ',' tp).zip (pySplit ',' fp)).map
          (fun pr => (fetch pr.1).length + (fetch pr.2).length)).sum) := by
  intro fetch tp fp
  constructor
  · intro hne
    have hcomma : (pyContains "," tp || pyContains "," fp) = true := by
      by_contra hc
      rw [Bool.or_eq_true] at hc
      push_neg at hc
      have htp : pyContains "," tp = false := by
        cases hq : pyContains "," tp
        · rfl
        · exact absurd hq hc.1
      have hfp : pyContains "," fp = false := by
        cases hq : pyContains "," fp
        · rfl
        · exact absurd hq hc.2
      rw [pySplit_no_comma htp, pySplit_no_comma hfp] at hne
      exact hne rfl
    have hcvp : Check_VCF_Paths tp fp = none := by
      unfold Check_VCF_Paths
      rw [if_pos ⟨hcomma, hne⟩]
    refine ⟨hcvp, ?_⟩
    unfold Train_Main
    rw [hcvp]
  · intro t h
    unfold Train_Main at h
    cases hcvp : Check_VCF_Paths tp fp with
    | none => rw [hcvp] at h; cases h
    | some pairs =>
      rw [hcvp] at h
      simp only at h
      cases hct : collectTables fetch pairs with
      | none => rw [hct] at h; cases h
      | some ts =>
        rw [hct] at h
        cases h
        have hpairs : pairs = (pySplit ',' tp).zip (pySplit ',' fp) := by
          unfold Check_VCF_Paths at hcvp
          split at hcvp
          · cases hcvp
          · exact (Option.some.inj hcvp).symm
        subst hpairs
        obtain ⟨hclen, hcidx⟩ := collectTables_spec _ _ hct
        refine ⟨ts, rfl, hclen, ?_, collectTables_len _ ts hct⟩
        intro i hp hts
        exact get_training_tables_spec (hcidx i hp hts)

/-- C6 counterexample: with equal-length (both singleton, nonzero) path
lists and a fetch whose single record is a completely ordinary variant call
(INFO carrying only QD, AD carrying the usual two depths), the training
run does NOT succeed: the per-file table construction fails, so the claim
that equal nonzero list lengths suffice for success is false. -/
theorem train_main_counterexample :
    (pySplit ',' "a").length = (pySplit ',' "b").length ∧
    (pySplit ',' "a").length = 1 ∧
    Train_Main
      (fun _ => [⟨"1", "100", ".", "A", "T", "50", ".", "QD=1.0", "GT:AD", "0/1:10,5"⟩])
      "a" "b" = none := by
  exact ⟨by decide, by decide, by decide⟩

/-- C6 witness: applying `train_main_rowcount` with a fetch returning the
two-record table `mtW` for every path — the unequal-length branch rejects
the pair of lists `a,b` versus `c` before any fetch, and the equal-length
single-pair run produces the in-order concatenation with exactly
2 + 2 = 4 rows. -/
theorem train_main_rowcount_witness :
    Check_VCF_Paths "a,b" "c" = none ∧
    Train_Main (fun _ => mtW) "a,b" "c" = none ∧
    (Train_Main (fun _ => mtW) "a" "b").isSome = true ∧
    ((Train_Main (fun _ => mtW) "a" "b").getD []).length = 4 := by
  have hpart1 := (train_main_rowcount (fun _ => mtW) "a,b" "c").1 (by decide)
  have hs : (Train_Main (fun _ => mtW) "a" "b").isSome = true := by decide
  obtain ⟨t, hts⟩ := Option.isSome_iff_exists.mp hs
  obtain ⟨ts, hflat, htslen, hper, hsum⟩ :=
    (train_main_rowcount (fun _ => mtW) "a" "b").2 t hts
  obtain ⟨ttp, tfp, http, htfp, hcat⟩ := hper 0 (by decide) (by rw [htslen]; decide)
  refine ⟨hpart1.1, hpart1.2, hs, ?_⟩
  rw [hts]
  simp only [Option.getD_some]
  rw [hsum]
  decide

/-- C7 counterexample: a file whose `#CHROM` header line is perfectly valid
(ten fields, FORMAT present) but whose data record has ELEVEN tab-separated
fields; `Check_VCF` passes it, so no FormatError is raised by the validation
before feature extraction, contradicting the claim that such a record is
rejected. -/
theorem check_vcf_counterexample :
    (pySplit '\t'
      (["##fileformat=VCFv4.2",
        "#CHROM\tPOS\tID\tREF\tALT\tQUAL\tFILTER\tINFO\tFORMAT\tSAMPLE1",
        "1\t100\t.\tA\tT\t50\t.\tQD=1\tGT:AD\t0/1:10,5,0\textra"].getD 2 "")).length = 11 ∧
    Check_VCF
      ["##fileformat=VCFv4.2",
       "#CHROM\tPOS\tID\tREF\tALT\tQUAL\tFILTER\tINFO\tFORMAT\tSAMPLE1",
       "1\t100\t.\tA\tT\t50\t.\tQD=1\tGT:AD\t0/1:10,5,0\textra"] = true := by
  exact ⟨by decide, by decide⟩

/-- C7 (amended): the validation examines only the first line starting with
`#CHROM`: it rejects the file iff that line fails to have exactly ten
tab-separated fields with `FORMAT` among them.  A multi-sample file, which
declares its extra sample column on that header line, is therefore rejected
outright before any feature extraction; data-record field counts are not
checked. -/
theorem check_vcf_header_only :
    ∀ (lines : List String) (l : String),
    lines.find? (fun l2 => pyStartsWith "#CHROM" l2) = some l →
    (Check_VCF lines = true ↔
      ((pySplit '\t' l).length = 10 ∧ (pySplit '\t' l).contains "FORMAT" = true)) := by
  intro lines l h
  unfold Check_VCF
  rw [h]
  simp [assert_vcf_line, Bool.and_eq_true, decide_eq_true_eq]

/-- C7 witness: the amended theorem applied to a single-line multi-sample
header (eleven fields: a second sample column) rejects it, and applied to a
valid ten-field header accepts it. -/
theorem check_vcf_header_only_witness :
    Check_VCF ["#CHROM\tPOS\tID\tREF\tALT\tQUAL\tFILTER\tINFO\tFORMAT\tS1\tS2"] = false ∧
    Check_VCF ["#CHROM\tPOS\tID\tREF\tALT\tQUAL\tFILTER\tINFO\tFORMAT\tS1"] = true := by
  constructor
  · have hiff := check_vcf_header_only
      ["#CHROM\tPOS\tID\tREF\tALT\tQUAL\tFILTER\tINFO\tFORMAT\tS1\tS2"]
      "#CHROM\tPOS\tID\tREF\tALT\tQUAL\tFILTER\tINFO\tFORMAT\tS1\tS2" (by decide)
    cases hb : Check_VCF ["#CHROM\tPOS\tID\tREF\tALT\tQUAL\tFILTER\tINFO\tFORMAT\tS1\tS2"]
    · rfl
    · have hp := hiff.mp hb
      have : (pySplit '\t'
          "#CHROM\tPOS\tID\tREF\tALT\tQUAL\tFILTER\tINFO\tFORMAT\tS1\tS2").length = 10 := hp.1
      exact absurd this (by decide)
  · exact (check_vcf_header_only
      ["#CHROM\tPOS\tID\tREF\tALT\tQUAL\tFILTER\tINFO\tFORMAT\tS1"]
      "#CHROM\tPOS\tID\tREF\tALT\tQUAL\tFILTER\tINFO\tFORMAT\tS1" (by decide)).mpr
      ⟨by decide, by decide⟩

/-- C5: on a header with one pre-existing `##FILTER` metadata line, the code
inserts the two new FILTER-definition lines TWICE — once before the
`##FILTER` line and once again before the column-header line (which itself
contains the substring `FILTER` as a column name) — not exactly once as
claimed; and on a header whose column-header line lacks the `FILTER` text the
code crashes on the unassigned flag instead of inserting. -/
theorem get_header_inserts_twice :
    Get_Header
      ["##fileformat=VCFv4.2",
       "##FILTER=<ID=LowQual,Description=\"Low quality\">",
       "#CHROM\tPOS\tID\tREF\tALT\tQUAL\tFILTER\tINFO\tFORMAT\tSAMPLE1"] =
      some ["##fileformat=VCFv4.2",
            xgbSnpLine, xgbIndLine,
            "##FILTER=<ID=LowQual,Description=\"Low quality\">",
            xgbSnpLine, xgbIndLine,
            "#CHROM\tPOS\tID\tREF\tALT\tQUAL\tFILTER\tINFO\tFORMAT\tSAMPLE1"] ∧
    ((Get_Header
      ["##fileformat=VCFv4.2",
       "##FILTER=<ID=LowQual,Description=\"Low quality\">",
       "#CHROM\tPOS\tID\tREF\tALT\tQUAL\tFILTER\tINFO\tFORMAT\tSAMPLE1"]).getD []).count
      xgbSnpLine = 2 ∧
    Get_Header ["#CHROM\tPOS"] = none := by
  exact ⟨by decide, by decide, by decide⟩

/-- C9: the package's `Get_Name` (the function pinned by the repository's
own unit tests) satisfies the claim on both examples, but the local copy in
apply_filter.py — the one the apply workflow actually calls — omits the
gzip branch and yields `path.vcf.filter.vcf` on a `.gz` input instead of the
claimed `path.filter.vcf`. -/
theorem get_name_gz_divergence :
    Get_Name "made/up/path.vcf" = "path.filter.vcf" ∧
    Get_Name "made/up/path.vcf.gz" = "path.filter.vcf" ∧
    Get_Name_apply "made/up/path.vcf" = "path.filter.vcf" ∧
    Get_Name_apply "made/up/path.vcf.gz" = "path.vcf.filter.vcf" := by
  exact ⟨by decide, by decide, by decide, by decide⟩

/-- C8 counterexample: on the one-record table `cex8rec` with the numeric
QUAL literal `50.00` and a stub model predicting 1 (so the FILTER tag is
the pass tag `.`, identical to the input FILTER), the written line carries
QUAL `50.0` — read_csv infers the all-numeric QUAL column as float64 and
to_csv re-serializes it — so the output line differs from the input line in
a non-FILTER column, refuting the claim as stated. -/
theorem apply_pipeline_counterexample :
    Apply_Pipeline (fun _ => 1) (fun _ => 1) [cex8rec] =
      some ["1\t100\t.\tA\tT\t50.0\t.\tQD=1.0;MQ=60.00;FS=0.5;MQRankSum=0.1;ReadPosRankSum=0.2;SOR=0.7\tGT:AD\t0/1:10,5,0"] ∧
    String.intercalate "\t" ((recFields cex8rec).set 6 ".") =
      "1\t100\t.\tA\tT\t50.00\t.\tQD=1.0;MQ=60.00;FS=0.5;MQRankSum=0.1;ReadPosRankSum=0.2;SOR=0.7\tGT:AD\t0/1:10,5,0" ∧
    Apply_Pipeline (fun _ => 1) (fun _ => 1) [cex8rec] ≠
      some [String.intercalate "\t" ((recFields cex8rec).set 6 ".")] := by
  exact ⟨by decide, by decide, by decide⟩

/-- C8 (amended): whenever the apply pipeline writes output, each written
line is the tab-join of exactly ten fields whose index-6 entry is the
decided filter tag `Add_Filter (Check_SNP ref alt) (Predict_Var ...)` — the
FILTER column is the only one the workflow assigns — and whose other nine
entries are the corresponding input cells as re-serialized by the
read_csv/to_csv round trip of their column's inferred dtype; in particular
a column of object dtype (some cell is no numeric literal) whose cells are
free of NA tokens, quotes and line breaks is carried back byte-identically,
so for records all of whose non-FILTER columns are such object columns the
written line differs from the input line only in the FILTER column. -/
theorem apply_pipeline_frame :
    ∀ (snp ind : List FVal → Int) (vcf : List VRecord) (out : List String),
    Apply_Pipeline snp ind vcf = some out →
    out.length = vcf.length ∧
    ∀ feats, Feature_Table vcf = some feats →
    ∀ i (hi : i < vcf.length) (ho : i < out.length) (hf : i < feats.length),
      ∃ fields : List String,
        out.get ⟨i, ho⟩ = String.intercalate "\t" fields ∧
        fields.length = 10 ∧
        fields.getD 6 "" =
          Add_Filter (Check_SNP (vcf.get ⟨i, hi⟩).ref (vcf.get ⟨i, hi⟩).alt)
            (Predict_Var snp ind (feats.get ⟨i, hf⟩)
              (Check_SNP (vcf.get ⟨i, hi⟩).ref (vcf.get ⟨i, hi⟩).alt)) ∧
        (∀ j, j < 10 → j ≠ 6 →
          fields.getD j "" =
            canonCell (colKind (colOf vcf j))
              ((recFields (vcf.get ⟨i, hi⟩)).getD j "")) ∧
        (∀ j, j < 10 → j ≠ 6 →
          colKind (colOf vcf j) = ColKind.object →
          (∀ s ∈ colOf vcf j, s ∉ naTokens ∧
            s.toList.contains '\"' = false ∧
            s.toList.contains '\n' = false ∧
            s.toList.contains '\r' = false) →
          fields.getD j "" = (recFields (vcf.get ⟨i, hi⟩)).getD j "") := by
  intro snp ind vcf out h
  unfold Apply_Pipeline at h
  cases hft : Feature_Table vcf with
  | none => rw [hft] at h; cases h
  | some feats0 =>
    rw [hft] at h
    simp only at h
    cases h
    have hflen : feats0.length = vcf.length := feature_table_len _ _ hft
    have hzlen : (feats0.zip vcf).length = vcf.length := by
      simp [List.length_zip, hflen]
    constructor
    · simp [hzlen]
    · intro feats hfeats i hi ho hf
      have hfeq : feats0 = feats := Option.some.inj hfeats
      subst hfeq
      have hiz : i < (feats0.zip vcf).length := by rw [hzlen]; exact hi
      refine ⟨((List.range 10).map (fun j =>
          canonCell (((List.range 10).map
              (fun j2 => colKind (colOf vcf j2))).getD j ColKind.object)
            ((recFields (vcf.get ⟨i, hi⟩)).getD j ""))).set 6
        (Add_Filter (Check_SNP (vcf.get ⟨i, hi⟩).ref (vcf.get ⟨i, hi⟩).alt)
          (Predict_Var snp ind (feats0.get ⟨i, hf⟩)
            (Check_SNP (vcf.get ⟨i, hi⟩).ref (vcf.get ⟨i, hi⟩).alt))), ?_, ?_, ?_, ?_, ?_⟩
      · simp [List.get_eq_getElem, List.getElem_map, List.getElem_zip]
      · simp
      · have h6 : (6 : ℕ) < (((List.range 10).map (fun j =>
            canonCell (((List.range 10).map
                (fun j2 => colKind (colOf vcf j2))).getD j ColKind.object)
              ((recFields (vcf.get ⟨i, hi⟩)).getD j ""))).set 6
            (Add_Filter (Check_SNP (vcf.get ⟨i, hi⟩).ref (vcf.get ⟨i, hi⟩).alt)
              (Predict_Var snp ind (feats0.get ⟨i, hf⟩)
                (Check_SNP (vcf.get ⟨i, hi⟩).ref (vcf.get ⟨i, hi⟩).alt)))).length := by
          simp
        rw [List.getD_eq_getElem _ _ h6]
        rw [List.getElem_set]
        simp
      · intro j hj hne
        have hkind : ((List.range 10).map
            (fun j2 => colKind (colOf vcf j2))).getD j ColKind.object =
            colKind (colOf vcf j) := by
          have hjr : j < ((List.range 10).map
              (fun j2 => colKind (colOf vcf j2))).length := by simpa using hj
          rw [List.getD_eq_getElem _ _ hjr]
          simp [List.getElem_map, List.getElem_range]
        have hjl : j < (((List.range 10).map (fun j3 =>
            canonCell (((List.range 10).map
                (fun j2 => colKind (colOf vcf j2))).getD j3 ColKind.object)
              ((recFields (vcf.get ⟨i, hi⟩)).getD j3 ""))).set 6
            (Add_Filter (Check_SNP (vcf.get ⟨i, hi⟩).ref (vcf.get ⟨i, hi⟩).alt)
              (Predict_Var snp ind (feats0.get ⟨i, hf⟩)
                (Check_SNP (vcf.get ⟨i, hi⟩).ref (vcf.get ⟨i, hi⟩).alt)))).length := by
          simpa using hj
        rw [List.getD_eq_getElem _ _ hjl]
        rw [List.getElem_set]
        rw [if_neg (Ne.symm hne)]
        rw [List.getElem_map, List.getElem_range]
        rw [hkind]
      · intro j hj hne hobj hclean
        have hmain : (((List.range 10).map (fun j3 =>
            canonCell (((List.range 10).map
                (fun j2 => colKind (colOf vcf j2))).getD j3 ColKind.object)
              ((recFields (vcf.get ⟨i, hi⟩)).getD j3 ""))).set 6
            (Add_Filter (Check_SNP (vcf.get ⟨i, hi⟩).ref (vcf.get ⟨i, hi⟩).alt)
              (Predict_Var snp ind (feats0.get ⟨i, hf⟩)
                (Check_SNP (vcf.get ⟨i, hi⟩).ref (vcf.get ⟨i, hi⟩).alt)))).getD j "" =
            canonCell (colKind (colOf vcf j))
              ((recFields (vcf.get ⟨i, hi⟩)).getD j "") := by
          have hkind : ((List.range 10).map
              (fun j2 => colKind (colOf vcf j2))).getD j ColKind.object =
              colKind (colOf vcf j) := by
            have hjr : j < ((List.range 10).map
                (fun j2 => colKind (colOf vcf j2))).length := by simpa using hj
            rw [List.getD_eq_getElem _ _ hjr]
            simp [List.getElem_map, List.getElem_range]
          have hjl : j < (((List.range 10).map (fun j3 =>
              canonCell (((List.range 10).map
                  (fun j2 => colKind (colOf vcf j2))).getD j3 ColKind.object)
                ((recFields (vcf.get ⟨i, hi⟩)).getD j3 ""))).set 6
              (Add_Filter (Check_SNP (vcf.get ⟨i, hi⟩).ref (vcf.get ⟨i, hi⟩).alt)
                (Predict_Var snp ind (feats0.get ⟨i, hf⟩)
                  (Check_SNP (vcf.get ⟨i, hi⟩).ref (vcf.get ⟨i, hi⟩).alt)))).length := by
            simpa using hj
          rw [List.getD_eq_getElem _ _ hjl]
          rw [List.getElem_set]
          rw [if_neg (Ne.symm hne)]
          rw [List.getElem_map, List.getElem_range]
          rw [hkind]
        rw [hmain, hobj]
        rfl

/-- C8 witness: with stub models that predict 0 for everything, the pipeline
on the concrete table `mtW` (one SNP record, one indel record, every column
already in canonical form) produces exactly the input lines with the FILTER
column replaced by `XGB_SNP` and `XGB_IND` respectively, all other columns
byte-identical; the theorem applies with its hypotheses discharged at this
input, giving the length and, for the INFO column (an object column with
clean cells), the verbatim carry-over. -/
theorem apply_pipeline_frame_witness :
    (Apply_Pipeline (fun _ => 0) (fun _ => 0) mtW).isSome = true ∧
    ((Apply_Pipeline (fun _ => 0) (fun _ => 0) mtW).getD []).length = 2 ∧
    Apply_Pipeline (fun _ => 0) (fun _ => 0) mtW =
      some ["1\t100\t.\tA\tT\t50\tXGB_SNP\tQD=1.0;MQ=60.00;FS=0.5;MQRankSum=0.1;ReadPosRankSum=0.2;SOR=0.7\tGT:AD\t0/1:10,5,0",
            "1\t101\t.\tA\tAT\t50\tXGB_IND\tQD=2.0\tGT:AD\t0/1:1,2"] := by
  have hs : (Apply_Pipeline (fun _ => 0) (fun _ => 0) mtW).isSome = true := by decide
  obtain ⟨out, hout⟩ := Option.isSome_iff_exists.mp hs
  have hlen := (apply_pipeline_frame (fun _ => 0) (fun _ => 0) mtW out hout).1
  refine ⟨hs, ?_, by decide⟩
  rw [hout]
  simp only [Option.getD_some]
  rw [hlen]
  decide

end EVF
